import Mathlib

/-!
# go-http-monitor: the endpoint monitor of `main.go`

A shallow embedding of `main.go` and the properties of its monitoring loop.

* The SQLite table `endpoints (id, url, interval, last_checked, status)` is a list of
  rows in rowid order plus the AUTOINCREMENT counter. The program keeps the
  configuration of an endpoint and the results of its probes in this one table.
* Everything the outside world decides is an explicit input: the result of
  `http.Get`, the value of `time.Now().Unix()`, and whether a `db.Exec` or `db.Query`
  fails (the error text when it does).
* Standard output is the list of the lines printed so far.
* Go `int` is taken to be 64 bits wide, `time.Duration` is an `int64` count of
  nanoseconds, and the multiplication in `time.Duration(interval) * time.Second`
  wraps around.
* Goroutines are interleaved at the granularity of one loop iteration: the only
  statement of an iteration that touches the store is its single `INSERT`.
-/

namespace HttpMonitor

/-! ## The store -/

/-- One row of the table `endpoints`. Every column is `NOT NULL`; the four integer
columns hold the Go `int` values the program wrote. -/
structure Row where
  id : Int
  url : String
  interval : Int
  last_checked : Int
  status : Int
deriving DecidableEq, Repr

/-- The database behind the global `db`: the rows of `endpoints` in rowid order and
`seq`, the largest rowid ever handed out (SQLite keeps it for an AUTOINCREMENT key). -/
structure Store where
  rows : List Row
  seq : Int
deriving DecidableEq, Repr

/-- The state of the process that the program can observe or change: the store, the
lines written to standard output, and the number of HTTP GET requests sent. -/
structure World where
  store : Store
  stdout : List String
  gets : Nat
deriving DecidableEq, Repr

/-- The rowid an AUTOINCREMENT key gives the next inserted row: one more than the
largest rowid in the table and the largest ever handed out. -/
def nextId (st : Store) : Int :=
  st.rows.foldl (fun m r => max m r.id) st.seq + 1

/-- The statement
`INSERT INTO endpoints (url, interval, last_checked, status) VALUES (?, ?, ?, ?)`
run through `db.Exec`. `fault` is the error of the call, if the store fails. -/
def execInsert (fault : Option String) (st : Store) (url : String)
    (interval last_checked status : Int) : Except String Store :=
  match fault with
  | some err => .error err
  | none =>
    .ok { rows := st.rows ++ [⟨nextId st, url, interval, last_checked, status⟩],
          seq := nextId st }

/-- The statement `DELETE FROM endpoints WHERE url = ?` run through `db.Exec`. -/
def execDelete (fault : Option String) (st : Store) (url : String) : Except String Store :=
  match fault with
  | some err => .error err
  | none => .ok { rows := st.rows.filter (fun r => decide (r.url ≠ url)), seq := st.seq }

/-- The function `fmt.Println(err)`: one more line on standard output. -/
def println (w : World) (line : String) : World :=
  { w with stdout := w.stdout ++ [line] }

/-! ## Time -/

/-- Conversion to `int64`: two's complement wrap-around. -/
def wrapInt64 (x : Int) : Int :=
  (x + 2 ^ 63) % 2 ^ 64 - 2 ^ 63

/-- The constant `time.Second`, in nanoseconds. -/
def Second : Int := 1000000000

/-- The expression `time.Duration(interval) * time.Second`. -/
def tickerPeriod (interval : Int) : Int :=
  wrapInt64 (wrapInt64 interval * Second)

/-- The function `time.NewTicker(d)`: it panics when `d` is not positive, and
otherwise returns a ticker of period `d`. -/
def NewTicker (d : Int) : Except String Int :=
  if d ≤ 0 then .error "non-positive interval for NewTicker" else .ok d

/-! ## monitorEndpoint -/

/-- What the outside world contributes to one iteration of the loop: the result of
`http.Get(url)` (the error, or `resp.StatusCode`), the value of `time.Now().Unix()`,
and the error of the `db.Exec` call, if any. -/
structure Tick where
  resp : Except String Int
  now : Int
  fault : Option String

/-- One iteration of `for range ticker.C` in `monitorEndpoint` (lines 36 to 46). -/
def tickBody (url : String) (interval : Int) (t : Tick) (w : World) : World :=
  match t.resp with
  | .error err => println { w with gets := w.gets + 1 } err
  | .ok status =>
    match execInsert t.fault w.store url interval t.now status with
    | .error err => println { w with gets := w.gets + 1 } err
    | .ok st =>
      println { w with store := st, gets := w.gets + 1 } (url ++ " - " ++ toString status)

/-- The loop of `monitorEndpoint` run for the ticks its ticker delivers. -/
def runTicks (url : String) (interval : Int) (ticks : List Tick) (w : World) : World :=
  ticks.foldl (fun w t => tickBody url interval t w) w

/-- Where a call of `monitorEndpoint` stands after finitely many ticks. The function
has no `return` and the ticker's channel is never closed, so there is no state for
a call that has returned. -/
inductive LoopState where
  | waiting (w : World)
  | panicked (msg : String) (w : World)
deriving DecidableEq, Repr

/-- The function `monitorEndpoint(url, interval)`, observed after the ticks `ticks`. -/
def monitorEndpoint (url : String) (interval : Int) (ticks : List Tick) (w : World) :
    LoopState :=
  match NewTicker (tickerPeriod interval) with
  | .error msg => .panicked msg w
  | .ok _ => .waiting (runTicks url interval ticks w)

/-! ## monitorEndpoints -/

/-- A goroutine started by `monitorEndpoints`: it runs `monitorEndpoint(url, interval)`. -/
structure Loop where
  url : String
  interval : Int
deriving DecidableEq, Repr

/-- The call `rows.Scan(&url, &interval)` on a row of the query of line 51. A text
column always converts to a Go `string` and an integer column to a 64-bit Go `int`,
so on the rows of `Store` the call returns no error. -/
def rowsScan (r : Row) : Except String (String × Int) :=
  .ok (r.url, r.interval)

/-- The body of `for rows.Next()` in `monitorEndpoints` (lines 59 to 69): a row that
does not scan is reported and skipped, every other row gets a goroutine. -/
def startRow (acc : World × List Loop) (r : Row) : World × List Loop :=
  match rowsScan r with
  | .error err => (println acc.1 err, acc.2)
  | .ok (url, interval) => (acc.1, acc.2 ++ [⟨url, interval⟩])

/-- The function `monitorEndpoints` up to `wg.Wait()`: the world it leaves and the
goroutines it has started. `queryFault` is the error of
`db.Query("SELECT url, interval FROM endpoints")`, if the store fails; the query has no
`WHERE`, `GROUP BY` or `DISTINCT` clause and yields every row of the table. -/
def monitorEndpoints (queryFault : Option String) (w : World) : World × List Loop :=
  match queryFault with
  | some err => (println w err, [])
  | none => w.store.rows.foldl startRow (w, [])

/-- The process while the goroutines of `monitorEndpoints` run. A panic in a
goroutine is not recovered anywhere in the program, so it ends the process. -/
inductive Proc where
  | running (w : World)
  | crashed (msg : String) (w : World)
deriving DecidableEq, Repr

/-- The panic of the first goroutine whose `time.NewTicker` call panics, if any. -/
def firstPanic (loops : List Loop) : Option String :=
  loops.findSome? fun l =>
    match NewTicker (tickerPeriod l.interval) with
    | .error msg => some msg
    | .ok _ => none

/-- One event of a schedule: the goroutine `i` receives a tick, with what the
outside world contributes to that iteration. An index that names no goroutine is
no event. -/
def sessionStep (loops : List Loop) (w : World) (e : Nat × Tick) : World :=
  match loops.get? e.1 with
  | some l => tickBody l.url l.interval e.2 w
  | none => w

/-- The goroutines `loops` run under the schedule `sched`. Every goroutine creates
its ticker as its first action, before any ticker has fired; after that the
iterations of the loops interleave in the order of `sched`. -/
def runSession (loops : List Loop) (sched : List (Nat × Tick)) (w : World) : Proc :=
  match firstPanic loops with
  | some msg => .crashed msg w
  | none => .running (sched.foldl (sessionStep loops) w)

/-! ## addEndpoint, removeEndpoint, listEndpoints -/

/-- The value of a string of decimal digits. -/
def digitsValue (ds : List Char) : Nat :=
  ds.foldl (fun a c => 10 * a + (c.toNat - 48)) 0

/-- The function `strconv.Atoi`: an optional sign, then one or more decimal digits,
and a value that fits a 64-bit `int`; `none` stands for the error. -/
def Atoi (s : String) : Option Int :=
  let cs := s.toList
  let neg := cs.head? = some '-'
  let ds := if cs.head? = some '-' ∨ cs.head? = some '+' then cs.tail else cs
  if ds.isEmpty || !(ds.all Char.isDigit) then none
  else
    let v : Int := if neg then -(digitsValue ds : Int) else (digitsValue ds : Int)
    if v < -(2 ^ 63) ∨ 2 ^ 63 - 1 < v then none else some v

/-- The function `addEndpoint`. `now` is `time.Now().Unix()` and `fault` the error
of `db.Exec`, if any. -/
def addEndpoint (args : List String) (now : Int) (fault : Option String) (w : World) :
    World :=
  match args with
  | url :: arg1 :: _ =>
    match Atoi arg1 with
    | none => println w "Interval must be a number"
    | some interval =>
      match execInsert fault w.store url interval now 0 with
      | .error err => println w err
      | .ok st => println { w with store := st } "Endpoint added"
  | _ => println w "Usage: endpoint add <url> <interval>"

/-- The function `removeEndpoint`. `fault` is the error of `db.Exec`, if any. -/
def removeEndpoint (args : List String) (fault : Option String) (w : World) : World :=
  match args with
  | [] => println w "Usage: endpoint remove <url>"
  | url :: _ =>
    match execDelete fault w.store url with
    | .error err => println w err
    | .ok st => println { w with store := st } "Endpoint removed"

/-- The row of a group that carries `MAX(last_checked)`: SQLite takes the bare
columns of an aggregate query with a single `MAX` from a row that attains the
maximum, here the first such row in rowid order. -/
def maxRow : Row → List Row → Row
  | r, [] => r
  | r, r1 :: rs => if r.last_checked < r1.last_checked then maxRow r1 rs else maxRow r rs

/-- The result row of the group of `url` under `GROUP BY url`. -/
def groupRow (rows : List Row) (url : String) : Option Row :=
  match rows.filter (fun r => decide (r.url = url)) with
  | [] => none
  | r :: rs => some (maxRow r rs)

/-- The query of line 93,
`SELECT url, interval, MAX(last_checked) AS last_checked, status FROM endpoints
GROUP BY url ORDER BY id ASC`: one row for each url, sorted by rowid. -/
def queryGrouped (st : Store) : List Row :=
  ((st.rows.map (fun r => r.url)).dedup.filterMap (groupRow st.rows)).insertionSort
    (fun a b => a.id ≤ b.id)

/-- The function `strconv.Itoa`. -/
def Itoa (n : Int) : String := toString n

/-- The call `rows.Scan(&url, &interval, &lastChecked, &status)` on a row of the query
of line 93; as for `rowsScan`, it returns no error on the rows of `Store`. -/
def rowsScanAll (r : Row) : Except String (String × Int × Int × Int) :=
  .ok (r.url, r.interval, r.last_checked, r.status)

/-- The body of `for rows.Next()` in `listEndpoints` (lines 101 to 110): a row that
does not scan is reported and skipped, every other row adds a line to `data`.
`formatTime` is `time.Unix(int64(lastChecked), 0).Format("2006-01-02 15:04:05")`,
which depends on the time zone of the host. -/
def listRow (formatTime : Int → String) (acc : World × List (List String)) (r : Row) :
    World × List (List String) :=
  match rowsScanAll r with
  | .error err => (println acc.1 err, acc.2)
  | .ok (url, interval, lastChecked, status) =>
    (acc.1, acc.2 ++ [[url, Itoa interval, formatTime lastChecked, Itoa status]])

/-- The function `listEndpoints`: the world it leaves and the `data` it hands to
`printTable`, or `none` when the query fails and no table is printed. -/
def listEndpoints (formatTime : Int → String) (queryFault : Option String) (w : World) :
    World × Option (List (List String)) :=
  match queryFault with
  | some err => (println w err, none)
  | none =>
    (((queryGrouped w.store).foldl (listRow formatTime) (w, [])).1,
      some ((queryGrouped w.store).foldl (listRow formatTime) (w, [])).2)

/-! ## Views of the store used in the statements -/

/-- The columns of a row that the program writes itself: all but the rowid. -/
def Row.data (r : Row) : String × Int × Int × Int :=
  (r.url, r.interval, r.last_checked, r.status)

/-- The rows recorded for `url`, in the order they were written. -/
def rowsFor (url : String) (st : Store) : List Row :=
  st.rows.filter (fun r => decide (r.url = url))

/-- The store of a fresh database file, as `init` leaves it. -/
def emptyWorld : World :=
  { store := { rows := [], seq := 0 }, stdout := [], gets := 0 }

/-- A tick whose probe returns a status and whose store write succeeds, given as
the pair of the status and of the time of the write. -/
def okTick (p : Int × Int) : Tick :=
  { resp := .ok p.1, now := p.2, fault := none }

/-- The world a process leaves behind, running or crashed. -/
def Proc.world : Proc → World
  | .running w => w
  | .crashed _ w => w

/-- The columns other than the rowid of the rows recorded for `url`, in the order
they were written. -/
def history (url : String) (w : World) : List (String × Int × Int × Int) :=
  (rowsFor url w.store).map Row.data

/-- A fresh store after `endpoint add http://bad.test 0` and
`endpoint add http://ok.test 5`. -/
def zeroIntervalWorld : World :=
  addEndpoint ["http://ok.test", "5"] 101 none
    (addEndpoint ["http://bad.test", "0"] 100 none emptyWorld)

/-- A fresh store after `endpoint add http://a.test 5` and one tick of its loop whose
probe returned 200. -/
def probedWorld : World :=
  tickBody "http://a.test" 5 ⟨.ok 200, 105, none⟩
    (addEndpoint ["http://a.test", "5"] 100 none emptyWorld)

/-- The store with the single configuration row of the endpoint `(url, N)`. -/
def configuredWorld (url : String) (N t0 : Int) : World :=
  { store := { rows := [⟨1, url, N, t0, 0⟩], seq := 1 }, stdout := [], gets := 0 }

/-! ## Lemmas on one iteration -/

theorem tickBody_get_error (url : String) (interval : Int) (err : String) (now : Int)
    (fault : Option String) (w : World) :
    tickBody url interval ⟨.error err, now, fault⟩ w
      = println { w with gets := w.gets + 1 } err := rfl

theorem tickBody_ok (url : String) (interval s now : Int) (w : World) :
    tickBody url interval ⟨.ok s, now, none⟩ w
      = println { w with
          store := { rows := w.store.rows ++ [⟨nextId w.store, url, interval, now, s⟩],
                     seq := nextId w.store },
          gets := w.gets + 1 } (url ++ " - " ++ toString s) := rfl

theorem runTicks_cons (url : String) (interval : Int) (t : Tick) (ts : List Tick)
    (w : World) :
    runTicks url interval (t :: ts) w = runTicks url interval ts (tickBody url interval t w) :=
  rfl

theorem runTicks_append (url : String) (interval : Int) (ts us : List Tick) (w : World) :
    runTicks url interval (ts ++ us) w
      = runTicks url interval us (runTicks url interval ts w) := by
  simp [runTicks, List.foldl_append]

/-! ## C1, C2: one tick -/

/-- C1: a tick of `monitorEndpoint` whose HTTP GET fails leaves the store exactly as
it was, whatever ticks came before; the loop then handles the remaining ticks from
that unchanged store, and a later tick whose probe and write succeed appends its
row to it. -/
theorem tick_get_failure_keeps_store (url : String) (interval : Int) (w : World)
    (err : String) (now : Int) (fault : Option String) :
    (tickBody url interval ⟨.error err, now, fault⟩ w).store = w.store
    ∧ (∀ later : List Tick,
        runTicks url interval (⟨.error err, now, fault⟩ :: later) w
          = runTicks url interval later (println { w with gets := w.gets + 1 } err))
    ∧ (∀ s now2 : Int,
        (runTicks url interval [⟨.error err, now, fault⟩, ⟨.ok s, now2, none⟩] w).store.rows
          = w.store.rows ++ [⟨nextId w.store, url, interval, now2, s⟩]) := by
  refine ⟨rfl, fun later => rfl, fun s now2 => rfl⟩

/-- C2: a tick of `monitorEndpoint` whose probe returns the status `s` and whose
store write succeeds appends exactly one row, with the url of the endpoint,
`last_checked` equal to the current time and `status` equal to `s`; the rows that
were in the store stay, unchanged and in their order, in front of it. -/
theorem tick_success_appends_one_row (url : String) (interval s now : Int) (w : World) :
    ∃ r : Row,
      (tickBody url interval ⟨.ok s, now, none⟩ w).store.rows = w.store.rows ++ [r]
      ∧ r.url = url ∧ r.last_checked = now ∧ r.status = s ∧ r.interval = interval :=
  ⟨⟨nextId w.store, url, interval, now, s⟩, rfl, rfl, rfl, rfl, rfl⟩

/-! ## C4: k successful ticks -/

theorem tickerPeriod_of_small (N : Int) (h0 : 0 < N) (h1 : N ≤ 9223372036) :
    tickerPeriod N = N * 1000000000 := by
  have e1 : wrapInt64 N = N := by
    unfold wrapInt64
    rw [Int.emod_eq_of_lt (by omega) (by omega)]
    omega
  unfold tickerPeriod
  rw [e1]
  unfold wrapInt64 Second
  rw [Int.emod_eq_of_lt (by omega) (by omega)]
  omega

theorem monitorEndpoint_waiting (url : String) (N : Int) (h0 : 0 < N)
    (h1 : N ≤ 9223372036) (ticks : List Tick) (w : World) :
    monitorEndpoint url N ticks w = .waiting (runTicks url N ticks w) := by
  unfold monitorEndpoint NewTicker
  rw [tickerPeriod_of_small N h0 h1]
  have : ¬ N * 1000000000 ≤ 0 := by omega
  simp [this]

theorem runTicks_ok_rows (url : String) (N : Int) (obs : List (Int × Int)) (w : World) :
    ∃ added : List Row,
      (runTicks url N (obs.map okTick) w).store.rows = w.store.rows ++ added
      ∧ added.map Row.data = obs.map (fun p => (url, N, p.2, p.1)) := by
  induction obs generalizing w with
  | nil => exact ⟨[], by simp [runTicks], rfl⟩
  | cons p ps ih =>
    obtain ⟨added, h1, h2⟩ := ih (tickBody url N (okTick p) w)
    refine ⟨⟨nextId w.store, url, N, p.2, p.1⟩ :: added, ?_, ?_⟩
    · rw [List.map_cons, runTicks_cons, h1]
      simp [okTick, tickBody, execInsert, println]
    · simp [h2, Row.data]

/-- C4: for an endpoint with interval `N > 0`, the loop run for `k` ticks whose probes
and store writes all succeed appends exactly `k` rows to the store, all for the url
of the endpoint and the `i`-th with the status the `i`-th probe returned, so the url
has exactly `k` more rows than before; for `N` up to 9223372036 seconds the ticker
is created and `monitorEndpoint` is waiting for the next tick after these `k` ticks. -/
theorem loop_k_successful_ticks (url : String) (N : Int) (hN : 0 < N)
    (obs : List (Int × Int)) (w : World) :
    (∃ added : List Row,
      (runTicks url N (obs.map okTick) w).store.rows = w.store.rows ++ added
      ∧ added.length = obs.length
      ∧ added.map (fun r => (r.url, r.status)) = obs.map (fun p => (url, p.1))
      ∧ rowsFor url (runTicks url N (obs.map okTick) w).store
          = rowsFor url w.store ++ added)
    ∧ (N ≤ 9223372036 →
        monitorEndpoint url N (obs.map okTick) w
          = .waiting (runTicks url N (obs.map okTick) w)) := by
  refine ⟨?_, fun h1 => monitorEndpoint_waiting url N hN h1 _ w⟩
  obtain ⟨added, h1, h2⟩ := runTicks_ok_rows url N obs w
  have hlen : added.length = obs.length := by
    have := congrArg List.length h2
    simpa using this
  have hus : added.map (fun r => (r.url, r.status)) = obs.map (fun p => (url, p.1)) := by
    have := congrArg (List.map (fun d : String × Int × Int × Int => (d.1, d.2.2.2))) h2
    simpa [Row.data, Function.comp_def] using this
  have hall : ∀ r ∈ added, r.url = url := by
    intro r hr
    have hm : (r.url, r.status) ∈ added.map (fun r => (r.url, r.status)) :=
      List.mem_map.2 ⟨r, hr, rfl⟩
    rw [hus] at hm
    obtain ⟨p, _, hp⟩ := List.mem_map.1 hm
    exact (congrArg Prod.fst hp).symm
  refine ⟨added, h1, hlen, hus, ?_⟩
  unfold rowsFor
  rw [h1, List.filter_append]
  congr 1
  exact List.filter_eq_self.2 (fun r hr => by simpa using hall r hr)

/-- For the endpoint `("http://a.test", 5)`, three probes returning 200 and a fresh
store: three rows for the url, and the loop is waiting. -/
theorem loop_k_successful_ticks_witness :
    (0 : Int) < 5
    ∧ (rowsFor "http://a.test"
        (runTicks "http://a.test" 5 ([(200, 5), (200, 10), (200, 15)].map okTick)
          emptyWorld).store).length = 3
    ∧ monitorEndpoint "http://a.test" 5 ([(200, 5), (200, 10), (200, 15)].map okTick) emptyWorld
        = .waiting (runTicks "http://a.test" 5 ([(200, 5), (200, 10), (200, 15)].map okTick)
            emptyWorld) := by
  have h := loop_k_successful_ticks "http://a.test" 5 (by decide) [(200, 5), (200, 10), (200, 15)]
    emptyWorld
  obtain ⟨⟨added, _, hlen, _, hrows⟩, hwait⟩ := h
  refine ⟨by decide, ?_, hwait (by decide)⟩
  rw [hrows, List.length_append, hlen]
  rfl

/-! ## The session -/

theorem foldl_startRow (w : World) (acc : List Loop) (rows : List Row) :
    rows.foldl startRow (w, acc) = (w, acc ++ rows.map (fun r => ⟨r.url, r.interval⟩)) := by
  induction rows generalizing acc with
  | nil => simp
  | cons r rs ih => simp [startRow, rowsScan, ih]

theorem monitorEndpoints_loops (w : World) :
    monitorEndpoints none w = (w, w.store.rows.map (fun r => ⟨r.url, r.interval⟩)) := by
  simp [monitorEndpoints, foldl_startRow]

/-- C5 (the code at the failing input): with the rows of `endpoint add http://bad.test 0`
and `endpoint add http://ok.test 5` in the store, `monitorEndpoints` prints nothing and
starts a goroutine for both rows; the ticker of the first panics, and the process
crashes before any tick of the valid endpoint, whatever the schedule. -/
theorem monitorEndpoints_zero_interval_crashes :
    zeroIntervalWorld.store.rows
      = [⟨1, "http://bad.test", 0, 100, 0⟩, ⟨2, "http://ok.test", 5, 101, 0⟩]
    ∧ monitorEndpoints none zeroIntervalWorld
      = (zeroIntervalWorld, [⟨"http://bad.test", 0⟩, ⟨"http://ok.test", 5⟩])
    ∧ ∀ sched : List (Nat × Tick),
        runSession [⟨"http://bad.test", 0⟩, ⟨"http://ok.test", 5⟩] sched zeroIntervalWorld
          = .crashed "non-positive interval for NewTicker" zeroIntervalWorld := by
  refine ⟨by decide, ?_, fun sched => ?_⟩
  · rw [monitorEndpoints_loops]
    decide
  · rfl

/-- C6 (the code at the failing input): for the interval 0, and for the interval
9223372037 whose period in nanoseconds overflows `int64`, `monitorEndpoint` panics in
`time.NewTicker`, for every url, before it handles any tick. -/
theorem monitorEndpoint_panics (url : String) (ticks : List Tick) (w : World) :
    monitorEndpoint url 0 ticks w = .panicked "non-positive interval for NewTicker" w
    ∧ monitorEndpoint url 9223372037 ticks w
        = .panicked "non-positive interval for NewTicker" w :=
  ⟨rfl, rfl⟩

/-- C7 (the code at the failing input): for one configured endpoint `(url, N)` whose
loop has recorded `k` results, `monitorEndpoints` starts `k + 1` loops, one for the
configuration row and one for each recorded result. -/
theorem monitorEndpoints_loop_per_row (url : String) (N t0 : Int)
    (obs : List (Int × Int)) :
    (monitorEndpoints none
        (runTicks url N (obs.map okTick) (configuredWorld url N t0))).2
      = List.replicate (obs.length + 1) ⟨url, N⟩ := by
  obtain ⟨added, h1, h2⟩ := runTicks_ok_rows url N obs (configuredWorld url N t0)
  rw [monitorEndpoints_loops, h1]
  have h3 := congrArg (List.map (fun d : String × Int × Int × Int => Loop.mk d.1 d.2.1)) h2
  simp only [List.map_map, Function.comp_def, Row.data] at h3
  simp only [configuredWorld, List.map_append, h3, List.map_cons, List.map_nil]
  rw [List.map_const', List.replicate_succ]
  rfl

/-- C9: when reading the endpoint list fails, `monitorEndpoints` prints the error and
returns with no goroutine started, no HTTP request sent and the store as it was; with
no goroutine, no schedule makes anything happen afterwards. -/
theorem monitorEndpoints_query_failure (err : String) (w : World) :
    monitorEndpoints (some err) w = (println w err, [])
    ∧ (monitorEndpoints (some err) w).2 = []
    ∧ (monitorEndpoints (some err) w).1.stdout = w.stdout ++ [err]
    ∧ (monitorEndpoints (some err) w).1.store = w.store
    ∧ (monitorEndpoints (some err) w).1.gets = w.gets
    ∧ ∀ sched : List (Nat × Tick),
        runSession (monitorEndpoints (some err) w).2 sched (monitorEndpoints (some err) w).1
          = .running (println w err) := by
  refine ⟨rfl, rfl, rfl, rfl, rfl, fun sched => ?_⟩
  show Proc.running _ = _
  congr 1
  induction sched with
  | nil => rfl
  | cons e es ih => simpa [List.foldl_cons, sessionStep] using ih

/-! ## C8: removeEndpoint -/

/-- C8 fails as stated: the row that the tick of `probedWorld` recorded for
`http://a.test` is in the store before `endpoint remove http://a.test` and is not in
the store after it. -/
theorem removeEndpoint_deletes_recorded_row :
    probedWorld.store.rows
      = (addEndpoint ["http://a.test", "5"] 100 none emptyWorld).store.rows
          ++ [⟨2, "http://a.test", 5, 105, 200⟩]
    ∧ (⟨2, "http://a.test", 5, 105, 200⟩ : Row) ∈ probedWorld.store.rows
    ∧ (⟨2, "http://a.test", 5, 105, 200⟩ : Row)
        ∉ (removeEndpoint ["http://a.test"] none probedWorld).store.rows := by
  decide

/-- C8, amended: `removeEndpoint(url)` whose delete succeeds removes every row whose
url is `url`, the rows recorded by ticks included, and nothing else: the rows left
are the rows of the other urls, and each other url keeps its rows, unchanged and in
their order. When the delete fails the store is as it was. -/
theorem removeEndpoint_deletes_by_url (url : String) (rest : List String) (w : World) :
    (∀ r : Row, r ∈ (removeEndpoint (url :: rest) none w).store.rows
        ↔ (r ∈ w.store.rows ∧ r.url ≠ url))
    ∧ rowsFor url (removeEndpoint (url :: rest) none w).store = []
    ∧ (∀ u : String, u ≠ url →
        rowsFor u (removeEndpoint (url :: rest) none w).store = rowsFor u w.store)
    ∧ (∀ err : String, (removeEndpoint (url :: rest) (some err) w).store = w.store) := by
  refine ⟨fun r => ?_, ?_, fun u hu => ?_, fun err => rfl⟩
  · simp [removeEndpoint, execDelete, println]
  · simp [removeEndpoint, execDelete, println, rowsFor, List.filter_filter]
  · simp only [removeEndpoint, execDelete, println, rowsFor, List.filter_filter]
    apply List.filter_congr
    intro r _
    by_cases h : r.url = u
    · simp [h, hu]
    · simp [h]

/-- At `probedWorld`, removing `http://a.test` leaves no row for it and keeps the
rows of `http://b.test`. -/
theorem removeEndpoint_deletes_by_url_witness :
    "http://b.test" ≠ "http://a.test"
    ∧ rowsFor "http://a.test" (removeEndpoint ["http://a.test"] none probedWorld).store = []
    ∧ rowsFor "http://b.test" (removeEndpoint ["http://a.test"] none probedWorld).store
        = rowsFor "http://b.test" probedWorld.store :=
  ⟨by decide,
   (removeEndpoint_deletes_by_url "http://a.test" [] probedWorld).2.1,
   (removeEndpoint_deletes_by_url "http://a.test" [] probedWorld).2.2.1 "http://b.test"
     (by decide)⟩

/-! ## C3: isolation of the loops -/

theorem history_tickBody_other (u v : String) (hne : v ≠ u) (interval : Int) (t : Tick)
    (w : World) :
    history u (tickBody v interval t w) = history u w := by
  obtain ⟨resp, now, fault⟩ := t
  cases resp with
  | error err => rfl
  | ok s =>
    cases fault with
    | some err => rfl
    | none => simp [tickBody, execInsert, println, history, rowsFor, List.filter_append, hne]

theorem history_tickBody_same (u : String) (interval : Int) (t : Tick) (wa wb : World)
    (h : history u wa = history u wb) :
    history u (tickBody u interval t wa) = history u (tickBody u interval t wb) := by
  obtain ⟨resp, now, fault⟩ := t
  cases resp with
  | error err => exact h
  | ok s =>
    cases fault with
    | some err => exact h
    | none =>
      simp only [history, rowsFor] at h
      simp [tickBody, execInsert, println, history, rowsFor, List.filter_append, h, Row.data]

theorem history_sessionStep (E1 E2 : Loop) (hurl : E1.url ≠ E2.url) (e1 e2 : Nat × Tick)
    (hidx : e1.1 = e2.1) (htick : e1.1 ≠ 0 → e1 = e2) (wa wb : World)
    (h : history E2.url wa = history E2.url wb) :
    history E2.url (sessionStep [E1, E2] wa e1)
      = history E2.url (sessionStep [E1, E2] wb e2) := by
  obtain ⟨i, t1⟩ := e1
  obtain ⟨j, t2⟩ := e2
  simp only at hidx
  subst hidx
  match i with
  | 0 =>
    simp only [sessionStep, List.get?]
    rw [history_tickBody_other _ _ hurl, history_tickBody_other _ _ hurl]
    exact h
  | 1 =>
    have := htick (by simp)
    simp only [Prod.mk.injEq, true_and] at this
    subst this
    simp only [sessionStep, List.get?]
    exact history_tickBody_same _ _ _ _ _ h
  | n + 2 =>
    simp only [sessionStep, List.get?]
    exact h

theorem history_schedules (E1 E2 : Loop) (hurl : E1.url ≠ E2.url)
    (s1 s2 : List (Nat × Tick))
    (horder : s1.map Prod.fst = s2.map Prod.fst)
    (hsame : s1.filter (fun e => decide (e.1 ≠ 0)) = s2.filter (fun e => decide (e.1 ≠ 0)))
    (wa wb : World) (h : history E2.url wa = history E2.url wb) :
    history E2.url (s1.foldl (sessionStep [E1, E2]) wa)
      = history E2.url (s2.foldl (sessionStep [E1, E2]) wb) := by
  induction s1 generalizing s2 wa wb with
  | nil =>
    cases s2 with
    | nil => exact h
    | cons e2 r2 => simp at horder
  | cons e1 r1 ih =>
    cases s2 with
    | nil => simp at horder
    | cons e2 r2 =>
      simp only [List.map_cons, List.cons.injEq] at horder
      obtain ⟨hidx, hrest⟩ := horder
      simp only [List.foldl_cons]
      by_cases h0 : e1.1 = 0
      · have h0b : e2.1 = 0 := hidx ▸ h0
        simp only [List.filter_cons, h0, h0b, ne_eq, not_true_eq_false, decide_False,
          Bool.false_eq_true, if_false] at hsame
        exact ih r2 hrest hsame _ _
          (history_sessionStep E1 E2 hurl e1 e2 hidx (fun hn => absurd h0 hn) wa wb h)
      · have h0b : ¬ e2.1 = 0 := hidx ▸ h0
        simp only [List.filter_cons, h0, h0b, ne_eq, not_false_eq_true, decide_True,
          if_true, List.cons.injEq] at hsame
        exact ih r2 hrest hsame.2 _ _
          (history_sessionStep E1 E2 hurl e1 e2 hidx (fun _ => hsame.1) wa wb h)

/-- C3 fails as stated: the endpoints `("http://a.test", 5)` and `("http://a.test", 10)`
are distinct and share their url. Two runs in which only the first ticks once, with
a probe that returns 200 in one run and fails in the other, agree on the order of the
ticks and on the ticks of the second endpoint, and end with different rows for the
url of the second endpoint. -/
theorem shared_url_breaks_isolation :
    (⟨"http://a.test", 5⟩ : Loop) ≠ ⟨"http://a.test", 10⟩
    ∧ [((0 : Nat), (⟨.ok 200, 105, none⟩ : Tick))].map Prod.fst
        = [((0 : Nat), (⟨.error "connection refused", 105, none⟩ : Tick))].map Prod.fst
    ∧ [((0 : Nat), (⟨.ok 200, 105, none⟩ : Tick))].filter (fun e => decide (e.1 ≠ 0))
        = [((0 : Nat), (⟨.error "connection refused", 105, none⟩ : Tick))].filter
            (fun e => decide (e.1 ≠ 0))
    ∧ history "http://a.test"
        (runSession [⟨"http://a.test", 5⟩, ⟨"http://a.test", 10⟩]
          [(0, ⟨.ok 200, 105, none⟩)] emptyWorld).world
        = [("http://a.test", 5, 105, 200)]
    ∧ history "http://a.test"
        (runSession [⟨"http://a.test", 5⟩, ⟨"http://a.test", 10⟩]
          [(0, ⟨.error "connection refused", 105, none⟩)] emptyWorld).world
        = [] := by
  refine ⟨by decide, rfl, rfl, by decide, by decide⟩

/-- C3, amended: for two endpoints with different urls monitored in one session, two
runs from the same store with the same order of ticks and the same ticks of the
second endpoint (probe outcome, time and store-write outcome), and arbitrary ticks of
the first, end with the same sequence of rows for the url of the second endpoint, the
rowid aside; they also agree on whether the process has crashed. -/
theorem isolation_between_urls (E1 E2 : Loop) (hurl : E1.url ≠ E2.url)
    (s1 s2 : List (Nat × Tick)) (w : World)
    (horder : s1.map Prod.fst = s2.map Prod.fst)
    (hsame : s1.filter (fun e => decide (e.1 ≠ 0)) = s2.filter (fun e => decide (e.1 ≠ 0))) :
    history E2.url (runSession [E1, E2] s1 w).world
        = history E2.url (runSession [E1, E2] s2 w).world
    ∧ ((∃ w1 w2, runSession [E1, E2] s1 w = .running w1
          ∧ runSession [E1, E2] s2 w = .running w2)
        ∨ (∃ msg, runSession [E1, E2] s1 w = .crashed msg w
          ∧ runSession [E1, E2] s2 w = .crashed msg w)) := by
  unfold runSession
  cases hp : firstPanic [E1, E2] with
  | some msg => exact ⟨rfl, Or.inr ⟨msg, rfl, rfl⟩⟩
  | none =>
    exact ⟨history_schedules E1 E2 hurl s1 s2 horder hsame w w rfl, Or.inl ⟨_, _, rfl, rfl⟩⟩

/-- For the endpoints `("http://a.test", 5)` and `("http://b.test", 10)`: the probes of
the first succeed in one run and fail in the other, and the rows of `http://b.test`
are the same. -/
theorem isolation_between_urls_witness :
    (⟨"http://a.test", 5⟩ : Loop).url ≠ (⟨"http://b.test", 10⟩ : Loop).url
    ∧ history "http://b.test"
        (runSession [⟨"http://a.test", 5⟩, ⟨"http://b.test", 10⟩]
          [(0, ⟨.ok 200, 5, none⟩), (1, ⟨.ok 200, 10, none⟩), (0, ⟨.ok 200, 10, none⟩)]
          emptyWorld).world
      = history "http://b.test"
        (runSession [⟨"http://a.test", 5⟩, ⟨"http://b.test", 10⟩]
          [(0, ⟨.error "timeout", 5, none⟩), (1, ⟨.ok 200, 10, none⟩),
            (0, ⟨.error "timeout", 10, none⟩)]
          emptyWorld).world :=
  ⟨by decide, (isolation_between_urls ⟨"http://a.test", 5⟩ ⟨"http://b.test", 10⟩ (by decide)
    [(0, ⟨.ok 200, 5, none⟩), (1, ⟨.ok 200, 10, none⟩), (0, ⟨.ok 200, 10, none⟩)]
    [(0, ⟨.error "timeout", 5, none⟩), (1, ⟨.ok 200, 10, none⟩),
      (0, ⟨.error "timeout", 10, none⟩)]
    emptyWorld rfl rfl).1⟩

/-! ## C10: listEndpoints -/

theorem maxRow_mem (r : Row) (rs : List Row) : maxRow r rs ∈ r :: rs := by
  induction rs generalizing r with
  | nil => simp [maxRow]
  | cons r1 rs ih =>
    unfold maxRow
    split
    · exact List.mem_cons_of_mem _ (ih r1)
    · rcases List.mem_cons.1 (ih r) with h | h
      · rw [h]; exact List.mem_cons_self _ _
      · exact List.mem_cons_of_mem _ (List.mem_cons_of_mem _ h)

theorem maxRow_ge (r : Row) (rs : List Row) :
    r.last_checked ≤ (maxRow r rs).last_checked
    ∧ ∀ x ∈ rs, x.last_checked ≤ (maxRow r rs).last_checked := by
  induction rs generalizing r with
  | nil => simp [maxRow]
  | cons r1 rs ih =>
    unfold maxRow
    split
    · rename_i hlt
      obtain ⟨h1, h2⟩ := ih r1
      refine ⟨by omega, fun x hx => ?_⟩
      rcases List.mem_cons.1 hx with h | h
      · rw [h]; exact h1
      · exact h2 x h
    · rename_i hlt
      obtain ⟨h1, h2⟩ := ih r
      refine ⟨h1, fun x hx => ?_⟩
      rcases List.mem_cons.1 hx with h | h
      · rw [h]; omega
      · exact h2 x h

theorem groupRow_some (rows : List Row) (u : String) (p : Row)
    (h : groupRow rows u = some p) :
    p ∈ rows ∧ p.url = u
    ∧ ∀ r ∈ rows, r.url = u → r.last_checked ≤ p.last_checked := by
  unfold groupRow at h
  split at h
  · exact absurd h (by simp)
  · rename_i r rs hf
    have hp : p = maxRow r rs := by simpa using h.symm
    have hmem : p ∈ rows.filter (fun r => decide (r.url = u)) := by
      rw [hf, hp]; exact maxRow_mem r rs
    obtain ⟨hin, hu⟩ := List.mem_filter.1 hmem
    refine ⟨hin, by simpa using hu, fun x hx hxu => ?_⟩
    have hx2 : x ∈ r :: rs := by
      rw [← hf]; exact List.mem_filter.2 ⟨hx, by simpa using hxu⟩
    rw [hp]
    rcases List.mem_cons.1 hx2 with e | e
    · rw [e]; exact (maxRow_ge r rs).1
    · exact (maxRow_ge r rs).2 x e

theorem groupRow_of_mem (rows : List Row) (r : Row) (hr : r ∈ rows) :
    ∃ p, groupRow rows r.url = some p := by
  unfold groupRow
  split
  · rename_i hf
    have : r ∈ rows.filter (fun x => decide (x.url = r.url)) :=
      List.mem_filter.2 ⟨hr, by simp⟩
    rw [hf] at this
    exact absurd this (by simp)
  · exact ⟨_, rfl⟩

theorem filterMap_groupRow_urls (rows : List Row) (us : List String)
    (hus : ∀ u ∈ us, ∃ r ∈ rows, r.url = u) :
    (us.filterMap (groupRow rows)).map (fun r => r.url) = us := by
  induction us with
  | nil => rfl
  | cons u us ih =>
    obtain ⟨r, hr, hru⟩ := hus u (List.mem_cons_self _ _)
    obtain ⟨p, hp⟩ := groupRow_of_mem rows r hr
    rw [hru] at hp
    have hpu := (groupRow_some rows u p hp).2.1
    rw [List.filterMap_cons, hp]
    simp only [List.map_cons, hpu]
    rw [ih (fun v hv => hus v (List.mem_cons_of_mem _ hv))]

theorem foldl_listRow (formatTime : Int → String) (w : World) (acc : List (List String))
    (rows : List Row) :
    rows.foldl (listRow formatTime) (w, acc)
      = (w, acc ++ rows.map
          (fun p => [p.url, Itoa p.interval, formatTime p.last_checked, Itoa p.status])) := by
  induction rows generalizing acc with
  | nil => simp
  | cons r rs ih => simp [listRow, rowsScanAll, ih]

theorem queryGrouped_perm (st : Store) :
    (queryGrouped st).Perm ((st.rows.map (fun r => r.url)).dedup.filterMap (groupRow st.rows)) :=
  List.perm_insertionSort _ _

/-- C10: `listEndpoints` hands `printTable` exactly one line for each distinct url of
the store, and the line of a url is made from a row of the store with that url whose
`last_checked` is the maximum over all rows with that url: it shows that maximum as
the time last checked and the status of that row. -/
theorem listEndpoints_latest_per_url (formatTime : Int → String) (w : World) :
    (listEndpoints formatTime none w).2
      = some ((queryGrouped w.store).map
          (fun p => [p.url, Itoa p.interval, formatTime p.last_checked, Itoa p.status]))
    ∧ ((queryGrouped w.store).map (fun p => p.url)).Perm
        (w.store.rows.map (fun r => r.url)).dedup
    ∧ ((queryGrouped w.store).map (fun p => p.url)).Nodup
    ∧ (∀ u : String, u ∈ (queryGrouped w.store).map (fun p => p.url)
        ↔ ∃ r ∈ w.store.rows, r.url = u)
    ∧ (∀ p ∈ queryGrouped w.store,
        p ∈ w.store.rows
        ∧ ∀ r ∈ w.store.rows, r.url = p.url → r.last_checked ≤ p.last_checked) := by
  have hperm : ((queryGrouped w.store).map (fun p => p.url)).Perm
      (w.store.rows.map (fun r => r.url)).dedup := by
    have h1 := (queryGrouped_perm w.store).map (fun p => p.url)
    rw [filterMap_groupRow_urls] at h1
    · exact h1
    · intro u hu
      obtain ⟨r, hr, e⟩ := List.mem_map.1 (List.mem_dedup.1 hu)
      exact ⟨r, hr, e⟩
  refine ⟨?_, hperm, ?_, fun u => ?_, fun p hp => ?_⟩
  · simp [listEndpoints, foldl_listRow]
  · exact hperm.nodup_iff.2 (List.nodup_dedup _)
  · rw [hperm.mem_iff, List.mem_dedup, List.mem_map]
  · have hp2 := (queryGrouped_perm w.store).mem_iff.1 hp
    obtain ⟨u, _, hu⟩ := List.mem_filterMap.1 hp2
    obtain ⟨h1, h2, h3⟩ := groupRow_some _ _ _ hu
    exact ⟨h1, fun r hr hru => h3 r hr (hru.trans h2)⟩

/-- At `probedWorld` the table has one line, for `http://a.test`, made from the row the
tick recorded. -/
theorem listEndpoints_latest_per_url_witness :
    (listEndpoints (fun t => Itoa t) none probedWorld).2
      = some [["http://a.test", "5", "105", "200"]] := by
  rw [(listEndpoints_latest_per_url (fun t => Itoa t) probedWorld).1]
  decide

end HttpMonitor
